import Mathlib

/-!
Verification of the split-stream moral-verdict classifier
(`solve_moral_situation_split_stream`, in its two source variants
`high_conflict_z3.py` and `demo.py`).

Numbers appearing in comment vectors are modelled as rationals (Python
numerics, exact arithmetic); Python `int()` is truncation toward zero.
The z3 `Optimize` object with only soft constraints is modelled by
exhaustive maximization of total satisfied soft-clause weight over the
16 assignments of the four booleans; `opt.check()` on a soft-only
problem is always `sat`, which the model reflects by always returning
`some` assignment.
-/

/-- The four boolean propositions shared across all comments of a post:
`Bool('harm')`, `Bool('intent')`, `Bool('empathy')`, `Bool('apology')`. -/
inductive MoralProp where
  | harm
  | intent
  | empathy
  | apology
deriving DecidableEq

/-- One `opt.add_soft(lit, w)` call: a weighted preference that `prop`
take the value `polarity` (`polarity = false` models `Not(prop)`). -/
structure SoftClause where
  prop : MoralProp
  polarity : Bool
  weight : Int
deriving DecidableEq

/-- A total boolean assignment to the four propositions. -/
structure Assignment where
  harm : Bool
  intent : Bool
  empathy : Bool
  apology : Bool
deriving DecidableEq

def Assignment.eval (a : Assignment) : MoralProp → Bool
  | .harm => a.harm
  | .intent => a.intent
  | .empathy => a.empathy
  | .apology => a.apology

/-- Total weight of the soft clauses satisfied by assignment `a`:
a clause contributes its weight iff `a` gives its proposition the
clause's polarity. -/
def satWeight (cs : List SoftClause) (a : Assignment) : Int :=
  (cs.map fun cl => if a.eval cl.prop = cl.polarity then cl.weight else 0).sum

/-- All 16 assignments over the four propositions. -/
def allAssignments : List Assignment :=
  [false, true].flatMap fun h =>
    [false, true].flatMap fun i =>
      [false, true].flatMap fun e =>
        [false, true].map fun ap => ⟨h, i, e, ap⟩

/-- Keep the better of two assignments (strictly heavier challenger wins). -/
def betterOf (cs : List SoftClause) (x y : Assignment) : Assignment :=
  if satWeight cs x < satWeight cs y then y else x

/-- The model of z3's `Optimize`: an assignment maximizing total
satisfied soft-clause weight, by exhaustive enumeration. -/
def bestAssignment (cs : List SoftClause) : Assignment :=
  allAssignments.foldl (betterOf cs) ⟨false, false, false, false⟩

/-- `opt.check()` followed by `opt.model()`: a soft-clause-only problem
is always satisfiable, so this always resolves. -/
def checkSat (cs : List SoftClause) : Option Assignment :=
  some (bestAssignment cs)

/-- Python `int()` on a rational: truncation toward zero
(floor for non-negative arguments, ceiling for negative ones). -/
def pyInt (q : Rat) : Int :=
  if 0 ≤ q then ⌊q⌋ else ⌈q⌉

/-- One raw comment record; either vector key may be absent. -/
structure RawComment where
  comment_content_vector : Option (List Rat)
  comment_quality_vector : Option (List Rat)
deriving DecidableEq

/-- One raw post record; the `processed_comments` key may be absent. -/
structure Post where
  post_id : String
  title : String
  processed_comments : Option (List RawComment)
deriving DecidableEq

/-- The quality-vector padding: `if len(q_vec) < 5: q_vec = q_vec + [1] * (5 - len(q_vec))`. -/
def padQ (q : List Rat) : List Rat :=
  if q.length < 5 then q ++ List.replicate (5 - q.length) 1 else q

/-- The two per-comment stream weights, read off the padded quality vector
`[justif, ethic, delib, fair_blame, non_biased]`:
`w_logic = int((justif + delib) * non_biased)` and
`w_ethic = int((ethic + fair_blame) * non_biased)`.
After padding the vector has length at least 5, so the `getD` defaults are
never consulted. -/
def streamWeights (q : List Rat) : Int × Int :=
  (pyInt (((padQ q).getD 0 0 + (padQ q).getD 2 0) * (padQ q).getD 4 0),
   pyInt (((padQ q).getD 1 0 + (padQ q).getD 3 0) * (padQ q).getD 4 0))

/-- The four `opt.add_soft` calls made for one comment. The content vector
defaults to `[0,0,0,0]` and the quality vector to `[1,1,1,1,1]` when the key
is absent. Indexing `c_vec[0] .. c_vec[3]` succeeds exactly when the
effective content vector has length at least 4; a shorter supplied vector
raises `IndexError`, modelled by `none`. Each clause's polarity is the
Python comparison `c_vec[i] == 1`. -/
def clausesOfComment (c : RawComment) : Option (List SoftClause) :=
  let c_vec := c.comment_content_vector.getD [0, 0, 0, 0]
  let q_vec := c.comment_quality_vector.getD [1, 1, 1, 1, 1]
  let w := streamWeights q_vec
  if 4 ≤ c_vec.length then
    some [⟨.harm, decide (c_vec.getD 0 0 = 1), w.1⟩,
          ⟨.intent, decide (c_vec.getD 1 0 = 1), w.1⟩,
          ⟨.empathy, decide (c_vec.getD 2 0 = 1), w.2⟩,
          ⟨.apology, decide (c_vec.getD 3 0 = 1), w.2⟩]
  else none

/-- The clause-accumulation loop `for comment in comments`, in order; an
`IndexError` in any iteration aborts the whole call (`none`). -/
def clausesOfComments : List RawComment → Option (List SoftClause)
  | [] => some []
  | c :: rest => do
      let first ← clausesOfComment c
      let more ← clausesOfComments rest
      pure (first ++ more)

/-- The verdict labels returned by the program, together with the
`"No Data"` and `"Unclear"` sentinels. -/
inductive Verdict where
  | YTA
  | NTA
  | NAH
  | ESH
  | Unclear
  | NoData
deriving DecidableEq

namespace HighConflict

/-- The `--- FINAL RULES ---` block of `high_conflict_z3.py` (lines 91-99),
run on the model read back from the optimizer. The `if/elif` chain has no
`else`, so a fall-through would return Python `None` (`none` here). -/
def final_rules (a : Assignment) : Option Verdict :=
  if !a.harm then some .NTA
  else if a.harm && a.intent then some .YTA
  else if a.harm && !a.intent then
    if a.empathy || a.apology then some .NAH else some .ESH
  else none

/-- Lines 83-99 of `high_conflict_z3.py`: on `sat` the final rules run;
otherwise control falls off the end of the function, returning Python
`None` (`none` here). -/
def verdict_of_check : Option Assignment → Option Verdict
  | some a => final_rules a
  | none => none

/-- `solve_moral_situation_split_stream` of `high_conflict_z3.py`.
`none` models an uncaught exception (IndexError on a short supplied
content vector) or the function returning Python `None`. -/
def solve_moral_situation_split_stream (p : Post) : Option Verdict :=
  let comments := p.processed_comments.getD []
  if comments.isEmpty then some .NoData
  else
    match clausesOfComments comments with
    | none => none
    | some cs => verdict_of_check (checkSat cs)

end HighConflict

namespace Demo

/-- The `--- FINAL RULES ---` block of `demo.py` (lines 93-101) together
with the trailing `return "Unclear"`: a fall-through of the `if/elif`
chain inside the `sat` branch reaches the end of the function. -/
def final_rules (a : Assignment) : Verdict :=
  if a.harm && a.intent then .YTA
  else if !a.harm then .NAH
  else if a.harm && !a.intent then
    if a.empathy || a.apology then .NTA else .ESH
  else .Unclear

/-- Lines 82-103 of `demo.py`: on `sat` the final rules run; on non-`sat`
the trailing `return "Unclear"` executes. -/
def verdict_of_check : Option Assignment → Verdict
  | some a => final_rules a
  | none => .Unclear

/-- `solve_moral_situation_split_stream` of `demo.py`. `none` models an
uncaught exception (IndexError on a short supplied content vector). -/
def solve_moral_situation_split_stream (p : Post) : Option Verdict :=
  let comments := p.processed_comments.getD []
  if comments.isEmpty then some .NoData
  else
    match clausesOfComments comments with
    | none => none
    | some cs => some (verdict_of_check (checkSat cs))

end Demo

section Lemmas

/-- The accumulator of `betterOf` never gets lighter. -/
lemma satWeight_le_betterOf_left (cs : List SoftClause) (x y : Assignment) :
    satWeight cs x ≤ satWeight cs (betterOf cs x y) := by
  unfold betterOf
  split <;> omega

/-- The challenger of `betterOf` never beats the result. -/
lemma satWeight_le_betterOf_right (cs : List SoftClause) (x y : Assignment) :
    satWeight cs y ≤ satWeight cs (betterOf cs x y) := by
  unfold betterOf
  split <;> omega

/-- Folding `betterOf` can only improve on the initial assignment. -/
lemma satWeight_foldl_init (cs : List SoftClause) (l : List Assignment) :
    ∀ init : Assignment,
      satWeight cs init ≤ satWeight cs (l.foldl (betterOf cs) init) := by
  induction l with
  | nil => intro init; simp
  | cons b t ih =>
      intro init
      exact le_trans (satWeight_le_betterOf_left cs init b) (ih (betterOf cs init b))

/-- Folding `betterOf` dominates every assignment in the list. -/
lemma satWeight_foldl_mem (cs : List SoftClause) (a : Assignment) :
    ∀ (l : List Assignment) (init : Assignment), a ∈ l →
      satWeight cs a ≤ satWeight cs (l.foldl (betterOf cs) init) := by
  intro l
  induction l with
  | nil => intro init ha; cases ha
  | cons b t ih =>
      intro init ha
      rcases List.mem_cons.mp ha with h | h
      · subst h
        exact le_trans (satWeight_le_betterOf_right cs init a) (satWeight_foldl_init cs t _)
      · exact ih _ h

set_option maxRecDepth 4000 in
/-- Every assignment over the four propositions occurs in the enumeration. -/
lemma mem_allAssignments (a : Assignment) : a ∈ allAssignments := by
  obtain ⟨h, i, e, ap⟩ := a
  cases h <;> cases i <;> cases e <;> cases ap <;> decide

/-- Reading any of the first five entries of the padded quality vector is
reading the raw quality vector with default `1` for missing entries. -/
lemma padQ_getD (q : List Rat) (i : Nat) (hi : i < 5) :
    (padQ q).getD i 0 = q.getD i 1 := by
  unfold padQ
  split
  · rename_i hlt
    rcases Nat.lt_or_ge i q.length with h | h
    · rw [List.getD_append _ _ _ _ h, List.getD_eq_getElem _ _ h, List.getD_eq_getElem _ _ h]
    · rw [List.getD_append_right _ _ _ _ h, List.getD_eq_default _ _ h]
      have hrep : i - q.length < (List.replicate (5 - q.length) (1 : Rat)).length := by
        simp
        omega
      rw [List.getD_eq_getElem _ _ hrep, List.getElem_replicate]
  · rename_i hge
    have h : i < q.length := by omega
    rw [List.getD_eq_getElem _ _ h, List.getD_eq_getElem _ _ h]

/-- The stream weights expressed directly over the raw quality vector:
missing trailing entries behave as the neutral multiplier `1`. -/
lemma streamWeights_eq (q : List Rat) :
    streamWeights q =
      (pyInt ((q.getD 0 1 + q.getD 2 1) * q.getD 4 1),
       pyInt ((q.getD 1 1 + q.getD 3 1) * q.getD 4 1)) := by
  unfold streamWeights
  rw [padQ_getD q 0 (by omega), padQ_getD q 1 (by omega), padQ_getD q 2 (by omega),
    padQ_getD q 3 (by omega), padQ_getD q 4 (by omega)]

end Lemmas

/-- C1: for every Post with at least one comment whose clause set is built,
the assignment produced by the optimizer has total satisfied soft-clause
weight greater than or equal to that of every one of the 16 boolean
assignments over Harm, Intent, Empathy and Apology (in particular the other
15). -/
theorem optimizer_assignment_is_optimal (p : Post) (cs : List SoftClause)
    (hne : p.processed_comments.getD [] ≠ [])
    (hcs : clausesOfComments (p.processed_comments.getD []) = some cs)
    (a : Assignment) :
    satWeight cs a ≤ satWeight cs (bestAssignment cs) :=
  satWeight_foldl_mem cs a allAssignments _ (mem_allAssignments a)

/-- Witness for C1: Scenario A's clause set, compared against the all-false
assignment. -/
theorem optimizer_assignment_is_optimal_witness :
    satWeight [⟨.harm, true, 2⟩, ⟨.intent, true, 2⟩, ⟨.empathy, false, 2⟩, ⟨.apology, false, 2⟩]
        ⟨false, false, false, false⟩ ≤
      satWeight [⟨.harm, true, 2⟩, ⟨.intent, true, 2⟩, ⟨.empathy, false, 2⟩, ⟨.apology, false, 2⟩]
        (bestAssignment
          [⟨.harm, true, 2⟩, ⟨.intent, true, 2⟩, ⟨.empathy, false, 2⟩, ⟨.apology, false, 2⟩]) :=
  optimizer_assignment_is_optimal
    ⟨"a", "t", some [⟨some [1, 1, 0, 0], some [1, 1, 1, 1, 1]⟩]⟩ _
    (by simp)
    (by norm_num [clausesOfComments, clausesOfComment, streamWeights, padQ, pyInt])
    ⟨false, false, false, false⟩

/-- C2: every comment that survives content-vector indexing emits exactly
four soft clauses, on Harm, Intent, Empathy, Apology in that order; the
Harm and Intent clauses carry weight `int((justification + deliberative) *
non_biased)` and the Empathy and Apology clauses carry weight
`int((ethic + fairness) * non_biased)` (missing trailing quality entries
behave as `1`); the weight of each clause is drawn only from its stream,
independently of the polarity the comment votes for. -/
theorem four_soft_clauses_per_comment (c : RawComment) (cs : List SoftClause)
    (h : clausesOfComment c = some cs) :
    cs.length = 4 ∧
    cs.map SoftClause.prop = [.harm, .intent, .empathy, .apology] ∧
    cs.map SoftClause.weight =
      [pyInt (((c.comment_quality_vector.getD [1, 1, 1, 1, 1]).getD 0 1 +
                (c.comment_quality_vector.getD [1, 1, 1, 1, 1]).getD 2 1) *
              (c.comment_quality_vector.getD [1, 1, 1, 1, 1]).getD 4 1),
       pyInt (((c.comment_quality_vector.getD [1, 1, 1, 1, 1]).getD 0 1 +
                (c.comment_quality_vector.getD [1, 1, 1, 1, 1]).getD 2 1) *
              (c.comment_quality_vector.getD [1, 1, 1, 1, 1]).getD 4 1),
       pyInt (((c.comment_quality_vector.getD [1, 1, 1, 1, 1]).getD 1 1 +
                (c.comment_quality_vector.getD [1, 1, 1, 1, 1]).getD 3 1) *
              (c.comment_quality_vector.getD [1, 1, 1, 1, 1]).getD 4 1),
       pyInt (((c.comment_quality_vector.getD [1, 1, 1, 1, 1]).getD 1 1 +
                (c.comment_quality_vector.getD [1, 1, 1, 1, 1]).getD 3 1) *
              (c.comment_quality_vector.getD [1, 1, 1, 1, 1]).getD 4 1)] := by
  simp only [clausesOfComment] at h
  split at h
  · rename_i h4
    injection h with h2
    subst h2
    refine ⟨rfl, rfl, ?_⟩
    simp only [List.map_cons, List.map_nil, streamWeights_eq]
  · exact Option.noConfusion h

/-- Witness for C2: a comment with a short quality vector `[3/2, 2]`. -/
theorem four_soft_clauses_per_comment_witness :
    ([⟨.harm, true, 2⟩, ⟨.intent, false, 2⟩, ⟨.empathy, false, 3⟩,
        ⟨.apology, false, 3⟩] : List SoftClause).length = 4 ∧
    ([⟨.harm, true, 2⟩, ⟨.intent, false, 2⟩, ⟨.empathy, false, 3⟩,
        ⟨.apology, false, 3⟩] : List SoftClause).map SoftClause.prop =
      [.harm, .intent, .empathy, .apology] ∧
    ([⟨.harm, true, 2⟩, ⟨.intent, false, 2⟩, ⟨.empathy, false, 3⟩,
        ⟨.apology, false, 3⟩] : List SoftClause).map SoftClause.weight =
      [pyInt ((((3 : Rat) / 2 + 1) : Rat) * 1), pyInt ((((3 : Rat) / 2 + 1) : Rat) * 1),
       pyInt (((2 : Rat) + 1) * 1), pyInt (((2 : Rat) + 1) * 1)] := by
  have h := four_soft_clauses_per_comment ⟨some [1, 0, 0, 0], some [(3 : Rat) / 2, 2]⟩
    [⟨.harm, true, 2⟩, ⟨.intent, false, 2⟩, ⟨.empathy, false, 3⟩, ⟨.apology, false, 3⟩]
    (by norm_num [clausesOfComment, streamWeights, padQ, pyInt])
  simpa using h

/-- C3: a Post whose comment sequence is empty or whose
`processed_comments` key is missing classifies to the `NoData` sentinel in
both variants, regardless of the other fields, and the clause collection
built for it is empty (the optimizer has nothing to solve). -/
theorem empty_comments_no_data (p : Post)
    (h : p.processed_comments.getD [] = []) :
    HighConflict.solve_moral_situation_split_stream p = some Verdict.NoData ∧
    Demo.solve_moral_situation_split_stream p = some Verdict.NoData ∧
    clausesOfComments (p.processed_comments.getD []) = some [] := by
  refine ⟨?_, ?_, ?_⟩ <;>
    simp [HighConflict.solve_moral_situation_split_stream,
      Demo.solve_moral_situation_split_stream, clausesOfComments, h]

/-- Witness for C3: one Post with the key missing entirely and one with an
empty comment list. -/
theorem empty_comments_no_data_witness :
    (HighConflict.solve_moral_situation_split_stream ⟨"p1", "t1", none⟩ =
        some Verdict.NoData ∧
      Demo.solve_moral_situation_split_stream ⟨"p1", "t1", none⟩ =
        some Verdict.NoData ∧
      clausesOfComments ((⟨"p1", "t1", none⟩ : Post).processed_comments.getD []) =
        some []) ∧
    (HighConflict.solve_moral_situation_split_stream ⟨"p2", "t2", some []⟩ =
        some Verdict.NoData ∧
      Demo.solve_moral_situation_split_stream ⟨"p2", "t2", some []⟩ =
        some Verdict.NoData ∧
      clausesOfComments ((⟨"p2", "t2", some []⟩ : Post).processed_comments.getD []) =
        some []) :=
  ⟨empty_comments_no_data ⟨"p1", "t1", none⟩ rfl,
   empty_comments_no_data ⟨"p2", "t2", some []⟩ rfl⟩

/-- The `high_conflict_z3.py` decision tree inside the `sat` branch is
exhaustive: it returns a verdict on every assignment. -/
lemma hc_final_rules_total (a : Assignment) :
    ∃ v, HighConflict.final_rules a = some v := by
  obtain ⟨h, i, e, ap⟩ := a
  cases h <;> cases i <;> cases e <;> cases ap <;> exact ⟨_, rfl⟩

/-- Clause accumulation succeeds whenever every effective content vector
has at least four entries. -/
lemma clausesOfComments_total (l : List RawComment)
    (h : ∀ c ∈ l, 4 ≤ (c.comment_content_vector.getD [0, 0, 0, 0]).length) :
    ∃ cs, clausesOfComments l = some cs := by
  induction l with
  | nil => exact ⟨[], rfl⟩
  | cons c t ih =>
      obtain ⟨cs1, hc1⟩ : ∃ x, clausesOfComment c = some x := by
        have h4 := h c (List.mem_cons_self c t)
        simp only [clausesOfComment]
        rw [if_pos h4]
        exact ⟨_, rfl⟩
      obtain ⟨cs2, hc2⟩ := ih fun c hc => h c (List.mem_cons_of_mem _ hc)
      exact ⟨cs1 ++ cs2, by simp [clausesOfComments, hc1, hc2]⟩

/-- C4 counterexample: a comment record whose supplied content vector has
fewer than 4 entries makes both variants raise an uncaught IndexError on
`c_vec[1]` (modelled by `none`): classification does not complete. -/
theorem short_content_vector_raises :
    HighConflict.solve_moral_situation_split_stream ⟨"m", "t", some [⟨some [1], none⟩]⟩ =
        none ∧
    Demo.solve_moral_situation_split_stream ⟨"m", "t", some [⟨some [1], none⟩]⟩ =
        none := by
  constructor <;>
    simp [HighConflict.solve_moral_situation_split_stream,
      Demo.solve_moral_situation_split_stream, clausesOfComments, clausesOfComment]

/-- C4 amended: a missing content vector, a missing quality vector, or a
short quality vector are defaulted silently and classification completes
normally; but this only holds when every supplied content vector has at
least 4 entries — a shorter supplied content vector raises IndexError. -/
theorem defaults_apply_silently (p : Post)
    (h : ∀ c ∈ p.processed_comments.getD [],
      4 ≤ (c.comment_content_vector.getD [0, 0, 0, 0]).length) :
    (∃ v, HighConflict.solve_moral_situation_split_stream p = some v) ∧
    (∃ v, Demo.solve_moral_situation_split_stream p = some v) := by
  by_cases he : (p.processed_comments.getD []).isEmpty = true
  · exact ⟨⟨.NoData, by simp [HighConflict.solve_moral_situation_split_stream, he]⟩,
      ⟨.NoData, by simp [Demo.solve_moral_situation_split_stream, he]⟩⟩
  · obtain ⟨cs, hcs⟩ := clausesOfComments_total _ h
    obtain ⟨v, hv⟩ := hc_final_rules_total (bestAssignment cs)
    refine ⟨⟨v, ?_⟩, ⟨Demo.verdict_of_check (checkSat cs), ?_⟩⟩
    · simp [HighConflict.solve_moral_situation_split_stream, he, hcs, checkSat,
        HighConflict.verdict_of_check, hv]
    · simp [Demo.solve_moral_situation_split_stream, he, hcs]

/-- Witness for C4 amended: a comment with no content vector and a
one-entry quality vector classifies without error in both variants. -/
theorem defaults_apply_silently_witness :
    (∃ v, HighConflict.solve_moral_situation_split_stream
        ⟨"w", "t", some [⟨none, some [2]⟩]⟩ = some v) ∧
    (∃ v, Demo.solve_moral_situation_split_stream
        ⟨"w", "t", some [⟨none, some [2]⟩]⟩ = some v) :=
  defaults_apply_silently ⟨"w", "t", some [⟨none, some [2]⟩]⟩
    (by
      intro c hc
      simp only [Option.getD_some, List.mem_singleton] at hc
      subst hc
      simp)

/-- C5 counterexample: in `high_conflict_z3.py`, when the check does not
return a satisfying model the function falls off its end and yields Python
`None` — an absent result, not the `Unclear` verdict. -/
theorem hc_nonresolution_returns_none :
    HighConflict.verdict_of_check none = none := rfl

/-- C5 amended: on optimizer non-resolution `demo.py` returns the
`Unclear` sentinel, while `high_conflict_z3.py` returns an absent result
(Python `None`); the modelled check itself always resolves (soft clauses
only), so neither fallback is reachable from a Post. -/
theorem nonresolution_fallback :
    Demo.verdict_of_check none = Verdict.Unclear ∧
    HighConflict.verdict_of_check none = none ∧
    ∀ cs : List SoftClause, checkSat cs = some (bestAssignment cs) :=
  ⟨rfl, rfl, fun _ => rfl⟩

/-- C6: on every resolved assignment, the two decision-tree variants agree
on the YTA branch (harm ∧ intent) and the ESH branch (harm ∧ ¬intent ∧
¬empathy ∧ ¬apology), and differ exactly by swapping the NTA and NAH
labels on the harm = false branch and on the harm ∧ ¬intent ∧
(empathy ∨ apology) branch. -/
theorem decision_tree_variants (a : Assignment) :
    (a.harm = true → a.intent = true →
      HighConflict.final_rules a = some Verdict.YTA ∧
        Demo.final_rules a = Verdict.YTA) ∧
    (a.harm = true → a.intent = false → a.empathy = false → a.apology = false →
      HighConflict.final_rules a = some Verdict.ESH ∧
        Demo.final_rules a = Verdict.ESH) ∧
    (a.harm = false →
      HighConflict.final_rules a = some Verdict.NTA ∧
        Demo.final_rules a = Verdict.NAH) ∧
    (a.harm = true → a.intent = false → (a.empathy = true ∨ a.apology = true) →
      HighConflict.final_rules a = some Verdict.NAH ∧
        Demo.final_rules a = Verdict.NTA) := by
  obtain ⟨h, i, e, ap⟩ := a
  cases h <;> cases i <;> cases e <;> cases ap <;>
    simp [HighConflict.final_rules, Demo.final_rules]

/-- Witness for C6: the four branches exercised on concrete assignments. -/
theorem decision_tree_variants_witness :
    (HighConflict.final_rules ⟨true, true, false, false⟩ = some Verdict.YTA ∧
      Demo.final_rules ⟨true, true, false, false⟩ = Verdict.YTA) ∧
    (HighConflict.final_rules ⟨true, false, false, false⟩ = some Verdict.ESH ∧
      Demo.final_rules ⟨true, false, false, false⟩ = Verdict.ESH) ∧
    (HighConflict.final_rules ⟨false, false, false, false⟩ = some Verdict.NTA ∧
      Demo.final_rules ⟨false, false, false, false⟩ = Verdict.NAH) ∧
    (HighConflict.final_rules ⟨true, false, true, false⟩ = some Verdict.NAH ∧
      Demo.final_rules ⟨true, false, true, false⟩ = Verdict.NTA) :=
  ⟨(decision_tree_variants ⟨true, true, false, false⟩).1 rfl rfl,
   (decision_tree_variants ⟨true, false, false, false⟩).2.1 rfl rfl rfl rfl,
   (decision_tree_variants ⟨false, false, false, false⟩).2.2.1 rfl,
   (decision_tree_variants ⟨true, false, true, false⟩).2.2.2 rfl rfl (Or.inl rfl)⟩

/-- C7: a supplied quality vector shorter than 5 is right-padded with 1s
to length exactly 5; a quality vector with 5 or more entries is kept
unchanged and the stream weights use only its first 5 entries, ignoring
the extras. -/
theorem quality_vector_padding (q : List Rat) :
    (q.length < 5 →
      (padQ q).length = 5 ∧ padQ q = q ++ List.replicate (5 - q.length) 1) ∧
    (5 ≤ q.length →
      padQ q = q ∧ streamWeights q = streamWeights (q.take 5)) := by
  constructor
  · intro h
    constructor
    · simp only [padQ, if_pos h, List.length_append, List.length_replicate]
      omega
    · simp only [padQ, if_pos h]
  · intro h
    have hq : padQ q = q := by rw [padQ, if_neg (by omega)]
    refine ⟨hq, ?_⟩
    have htake : ∀ i, i < 5 → (q.take 5).getD i 1 = q.getD i 1 := by
      intro i hi
      have h1 : i < (q.take 5).length := by
        simp only [List.length_take]
        omega
      have h2 : i < q.length := by omega
      rw [List.getD_eq_getElem _ _ h1, List.getD_eq_getElem _ _ h2, List.getElem_take]
    rw [streamWeights_eq, streamWeights_eq, htake 0 (by omega), htake 1 (by omega),
      htake 2 (by omega), htake 3 (by omega), htake 4 (by omega)]

/-- Witness for C7: a short vector `[2]` gets padded; a long vector keeps
only its first five entries relevant. -/
theorem quality_vector_padding_witness :
    ((padQ [2]).length = 5 ∧
      padQ [2] = [2] ++ List.replicate (5 - ([2] : List Rat).length) 1) ∧
    (padQ [1, 2, 3, 4, 5, 6] = [1, 2, 3, 4, 5, 6] ∧
      streamWeights [1, 2, 3, 4, 5, 6] =
        streamWeights (([1, 2, 3, 4, 5, 6] : List Rat).take 5)) :=
  ⟨(quality_vector_padding [2]).1 (by simp),
   (quality_vector_padding [1, 2, 3, 4, 5, 6]).2 (by simp)⟩

/-- Scenario A's single comment: content `[1,1,0,0]`, quality `[1,1,1,1,1]`. -/
def scenarioAComment : RawComment := ⟨some [1, 1, 0, 0], some [1, 1, 1, 1, 1]⟩

/-- Scenario A's post: exactly one comment. -/
def scenarioAPost : Post := ⟨"a", "t", some [scenarioAComment]⟩

/-- The four clauses Scenario A's comment emits. -/
def scenarioAClauses : List SoftClause :=
  [⟨.harm, true, 2⟩, ⟨.intent, true, 2⟩, ⟨.empathy, false, 2⟩, ⟨.apology, false, 2⟩]

set_option maxRecDepth 8000 in
/-- C8: for the post with one comment, content `[1,1,0,0]` and quality
`[1,1,1,1,1]`, the derived weights are logic = 2 and ethic = 2, the four
emitted clauses favor harm, intent, ¬empathy, ¬apology with weight 2 each,
the assignment harm=T, intent=T, empathy=F, apology=F is optimal and
strictly beats the other 15, and both variants classify the post as YTA. -/
theorem scenario_a_yields_yta :
    streamWeights [1, 1, 1, 1, 1] = (2, 2) ∧
    clausesOfComment scenarioAComment = some scenarioAClauses ∧
    bestAssignment scenarioAClauses = ⟨true, true, false, false⟩ ∧
    (allAssignments.all fun a =>
      decide (a = ⟨true, true, false, false⟩) ||
        decide (satWeight scenarioAClauses a <
          satWeight scenarioAClauses ⟨true, true, false, false⟩)) = true ∧
    HighConflict.solve_moral_situation_split_stream scenarioAPost = some Verdict.YTA ∧
    Demo.solve_moral_situation_split_stream scenarioAPost = some Verdict.YTA := by
  have hc : clausesOfComment scenarioAComment = some scenarioAClauses := by
    norm_num [clausesOfComment, scenarioAComment, scenarioAClauses, streamWeights, padQ, pyInt]
  have hcs : clausesOfComments [scenarioAComment] = some scenarioAClauses := by
    simp [clausesOfComments, hc]
  refine ⟨by norm_num [streamWeights, padQ, pyInt], hc, by decide, by decide, ?_, ?_⟩
  · simp only [HighConflict.solve_moral_situation_split_stream, scenarioAPost,
      Option.getD_some, List.isEmpty_cons, Bool.false_eq_true, if_false, hcs]
    decide
  · simp only [Demo.solve_moral_situation_split_stream, scenarioAPost,
      Option.getD_some, List.isEmpty_cons, Bool.false_eq_true, if_false, hcs]
    decide

/-- C9: classification is a pure function of the comment sequence: two
Posts with the same `processed_comments` field receive the same result in
each variant, whatever their other fields; there is no other input and no
state carried between posts. -/
theorem classify_depends_only_on_comments (p q : Post)
    (h : p.processed_comments = q.processed_comments) :
    HighConflict.solve_moral_situation_split_stream p =
      HighConflict.solve_moral_situation_split_stream q ∧
    Demo.solve_moral_situation_split_stream p =
      Demo.solve_moral_situation_split_stream q := by
  unfold HighConflict.solve_moral_situation_split_stream
    Demo.solve_moral_situation_split_stream
  rw [h]
  exact ⟨rfl, rfl⟩

/-- Witness for C9: two posts differing in id and title but sharing the
comment sequence classify identically. -/
theorem classify_depends_only_on_comments_witness :
    HighConflict.solve_moral_situation_split_stream
        ⟨"idA", "titleA", some [⟨some [1, 1, 0, 0], none⟩]⟩ =
      HighConflict.solve_moral_situation_split_stream
        ⟨"idB", "titleB", some [⟨some [1, 1, 0, 0], none⟩]⟩ ∧
    Demo.solve_moral_situation_split_stream
        ⟨"idA", "titleA", some [⟨some [1, 1, 0, 0], none⟩]⟩ =
      Demo.solve_moral_situation_split_stream
        ⟨"idB", "titleB", some [⟨some [1, 1, 0, 0], none⟩]⟩ :=
  classify_depends_only_on_comments
    ⟨"idA", "titleA", some [⟨some [1, 1, 0, 0], none⟩]⟩
    ⟨"idB", "titleB", some [⟨some [1, 1, 0, 0], none⟩]⟩ rfl

/-- C10: the polarity of each emitted soft clause is positive exactly when
the corresponding content-vector entry equals 1; every other value (0, 2,
a negative number, a non-integer) yields the negated-proposition clause,
silently treated as absence of the flag. -/
theorem clause_polarity_iff (c : RawComment) (cs : List SoftClause)
    (h : clausesOfComment c = some cs) (i : Nat) (hi : i < 4) :
    ((cs.getD i ⟨.harm, false, 0⟩).polarity = true ↔
      (c.comment_content_vector.getD [0, 0, 0, 0]).getD i 0 = 1) := by
  simp only [clausesOfComment] at h
  split at h
  · injection h with h2
    subst h2
    interval_cases i <;> simp [List.getD]
  · exact Option.noConfusion h

/-- Witness for C10: a comment voting `[1, 0, 2, 1/2]` — only the first
entry is exactly 1, so only the Harm clause has positive polarity; the
clause on Apology (entry 1/2, a non-integer) is checked here. -/
theorem clause_polarity_iff_witness :
    (([⟨.harm, true, 2⟩, ⟨.intent, false, 2⟩, ⟨.empathy, false, 2⟩,
          ⟨.apology, false, 2⟩] : List SoftClause).getD 3 ⟨.harm, false, 0⟩).polarity = true ↔
      (((⟨some [1, 0, 2, (1 : Rat) / 2], none⟩ :
          RawComment).comment_content_vector.getD [0, 0, 0, 0]).getD 3 0 = 1) :=
  clause_polarity_iff ⟨some [1, 0, 2, (1 : Rat) / 2], none⟩
    [⟨.harm, true, 2⟩, ⟨.intent, false, 2⟩, ⟨.empathy, false, 2⟩, ⟨.apology, false, 2⟩]
    (by norm_num [clausesOfComment, streamWeights, padQ, pyInt]) 3 (by omega)

